import Mathlib

/-!
Shallow embedding of the orchestration and planning engine of the
Elephan-Code repository (`elephan_code/agent/agent.py`, `elephan_code/llm/llm.py`,
`elephan_code/agent/plan/plan_structures.py`, `elephan_code/agent/plan/plan_todo.py`,
`elephan_code/agent/plan/plan_mode.py`, `elephan_code/agent/build_mode.py`),
together with theorems settling the specification claims about it.

External library calls of the Python code (the `json` module, `re` substitutions,
pydantic validation, the LLM transport, the tool implementations, wall-clock time)
are modelled as explicit function parameters ("oracles"); everything else is
translated directly from the source.
-/

set_option maxRecDepth 10000

namespace ElephanCode

/-- Message in conversational memory: `{"role": ..., "content": ...}` dict of
`Agent.memory` in `agent.py`. -/
structure Message where
  role : String
  content : String
deriving Repr, DecidableEq

/-- Embedding of `Agent._estimate_tokens`: `len(text) // 4`. -/
def estimate_tokens (text : String) : Nat :=
  text.length / 4

/-- Total estimated tokens of a memory list, as computed at the top of
`Agent._truncate_memory`: `sum(self._estimate_tokens(m.get("content", "")) for m in self.memory)`. -/
def totalTokens (memory : List Message) : Nat :=
  (memory.map (fun m => estimate_tokens m.content)).sum

/-- Embedding of the `while` loop of `Agent._truncate_memory`. `sys` is the
first (system) message, which `memory.pop(1)` never touches; `rest` is the tail;
`total` is the running token counter that the loop decrements by the estimate of
each removed message. -/
def truncGo (maxMsgs budget : Nat) (sys : Message) :
    List Message → Nat → List Message
  | [], _ => [sys]
  | r :: rs, total =>
    if (r :: rs).length + 1 > 2 ∧
        ((r :: rs).length + 1 > maxMsgs ∨ total > budget) then
      truncGo maxMsgs budget sys rs (total - estimate_tokens r.content)
    else
      sys :: r :: rs

/-- Embedding of `Agent._truncate_memory` (`agent.py` lines 72-85); `maxMsgs`
is `self.max_memory_messages` and `budget` is `self.context_window_tokens`. -/
def truncate_memory (maxMsgs budget : Nat) (memory : List Message) : List Message :=
  if memory.length ≤ 2 then memory
  else
    match memory with
    | [] => memory
    | sys :: rest => truncGo maxMsgs budget sys rest (totalTokens (sys :: rest))

lemma totalTokens_cons (m : Message) (ms : List Message) :
    totalTokens (m :: ms) = estimate_tokens m.content + totalTokens ms := by
  simp [totalTokens]

lemma totalTokens_sys_cons_sub (sys r : Message) (rs : List Message) :
    totalTokens (sys :: r :: rs) - estimate_tokens r.content =
      totalTokens (sys :: rs) := by
  simp only [totalTokens_cons]
  omega

/-- Full characterisation of the truncation loop: it drops some prefix of the
non-system tail, the result keeps the system head, never goes below 2 entries
(when it started with at least 2), satisfies both bounds (or sits at the floor)
on exit, and every single removal was forced by the loop condition. -/
lemma truncGo_spec (maxMsgs budget : Nat) (sys : Message) :
    ∀ rest : List Message,
      ∃ k, k ≤ rest.length ∧
        truncGo maxMsgs budget sys rest (totalTokens (sys :: rest)) =
          sys :: rest.drop k ∧
        ((sys :: rest.drop k).length ≤ 2 ∨
          ((sys :: rest.drop k).length ≤ maxMsgs ∧
            totalTokens (sys :: rest.drop k) ≤ budget)) ∧
        (∀ j < k, (sys :: rest.drop j).length > 2 ∧
          ((sys :: rest.drop j).length > maxMsgs ∨
            totalTokens (sys :: rest.drop j) > budget)) := by
  intro rest
  induction rest with
  | nil =>
      refine ⟨0, Nat.le_refl _, ?_, ?_, ?_⟩
      · simp [truncGo]
      · left; simp
      · intro j hj; omega
  | cons r rs ih =>
      by_cases hc : (r :: rs).length + 1 > 2 ∧
          ((r :: rs).length + 1 > maxMsgs ∨ totalTokens (sys :: r :: rs) > budget)
      · obtain ⟨k, hk, heq, hpost, hforced⟩ := ih
        refine ⟨k + 1, by simpa using Nat.succ_le_succ hk, ?_, ?_, ?_⟩
        · rw [truncGo, if_pos hc, totalTokens_sys_cons_sub]
          simpa using heq
        · simpa using hpost
        · intro j hj
          cases j with
          | zero =>
              simpa using hc
          | succ j' =>
              have hj' : j' < k := by omega
              simpa using hforced j' hj'
      · refine ⟨0, Nat.zero_le _, ?_, ?_, ?_⟩
        · rw [truncGo, if_neg hc]
          simp
        · push_neg at hc
          by_cases hlen : (r :: rs).length + 1 > 2
          · right
            have := hc hlen
            constructor
            · simpa using this.1
            · simpa using this.2
          · left
            simpa using Nat.not_lt.mp hlen
        · intro j hj; omega

/-- C1: For every memory list whose first entry is the system message, the
Agent's memory truncation removes only oldest non-system messages (a prefix of
the tail), keeps the first (system) message in place, never shrinks the history
below 2 entries (when it had at least 2), stops exactly when both the
message-count ceiling and the token budget are satisfied (or at the 2-entry
floor), and each individual removal happened only while one of the two bounds
was still violated. -/
theorem truncate_memory_correct (maxMsgs budget : Nat) (sys : Message)
    (rest : List Message) :
    ∃ k, k ≤ rest.length ∧
      truncate_memory maxMsgs budget (sys :: rest) = sys :: rest.drop k ∧
      (truncate_memory maxMsgs budget (sys :: rest)).length ≥
        min (sys :: rest).length 2 ∧
      ((sys :: rest.drop k).length ≤ 2 ∨
        ((sys :: rest.drop k).length ≤ maxMsgs ∧
          totalTokens (sys :: rest.drop k) ≤ budget)) ∧
      (∀ j < k, (sys :: rest.drop j).length > 2 ∧
        ((sys :: rest.drop j).length > maxMsgs ∨
          totalTokens (sys :: rest.drop j) > budget)) := by
  by_cases hshort : (sys :: rest).length ≤ 2
  · have hT : truncate_memory maxMsgs budget (sys :: rest) = sys :: rest := by
      rw [truncate_memory, if_pos hshort]
    refine ⟨0, Nat.zero_le _, ?_, ?_, ?_, ?_⟩
    · rw [hT]; simp
    · rw [hT]
      simp only [List.length_cons] at *
      omega
    · left; simpa using hshort
    · intro j hj; omega
  · obtain ⟨k, hk, heq, hpost, hforced⟩ := truncGo_spec maxMsgs budget sys rest
    have hT : truncate_memory maxMsgs budget (sys :: rest) = sys :: rest.drop k := by
      rw [truncate_memory, if_neg hshort]
      exact heq
    refine ⟨k, hk, hT, ?_, hpost, hforced⟩
    rw [hT]
    have h2 : k = 0 ∨ (sys :: rest.drop (k - 1)).length > 2 := by
      rcases Nat.eq_zero_or_pos k with h | h
      · exact Or.inl h
      · exact Or.inr (hforced (k - 1) (by omega)).1
    simp only [List.length_cons, List.length_drop] at *
    omega

/-- Embedding of `ActionModel` (`llm/llm.py`): a tool name plus a string-keyed
parameter map. Parameter values are modelled as strings (the Python type is
`Dict[str, Any]`; no claim depends on the value type). -/
structure ActionModel where
  name : String
  parameters : List (String × String) := []
deriving Repr, DecidableEq

/-- Embedding of `AgentResponse` (`llm/llm.py`): thought plus optional single
`action` (legacy) and optional `actions` list. -/
structure AgentResponse where
  thought : String
  action : Option ActionModel := none
  actions : Option (List ActionModel) := none
deriving Repr, DecidableEq

/-- Embedding of `AgentResponse.get_actions`. Python truthiness: `if self.actions:`
is False both when `actions` is `None` and when it is the empty list, and
`if self.action:` is True exactly when `action` is not `None` (a pydantic model
instance is always truthy). -/
def AgentResponse.get_actions (r : AgentResponse) : List ActionModel :=
  match r.actions with
  | some (a :: rest) => a :: rest
  | _ =>
    match r.action with
    | some a => [a]
    | none => []

/-- Opening brace character, written by code point to keep string literals plain. -/
def braceOpen : Char := Char.ofNat 123

/-- Closing brace character, written by code point. -/
def braceClose : Char := Char.ofNat 125

/-- Embedding of `re.search` for the pattern matching a leftmost-greedy braced
region with DOTALL (used in `ResponseParser.clean_and_parse`): the substring from
the first opening brace to the last closing brace, when the latter comes after
the former; otherwise no match. -/
def extractBraces (s : String) : Option String :=
  let tail := s.data.dropWhile (fun c => c ≠ braceOpen)
  let sub := (tail.reverse.dropWhile (fun c => c ≠ braceClose)).reverse
  if sub = [] then none else some (String.mk sub)

/-- Embedding of `ResponseParser.clean_and_parse` (`llm/llm.py` lines 36-50).
Oracles stand for Python library calls: `stripFences` is the `re.sub` removing
Markdown code-fence markers, `jsonLoads` is `json.loads` (`none` = it raises
`json.JSONDecodeError` on that input). The returned `Except.error` is the
`ValueError` raised when both parse attempts fail. `J` is the type of parsed
JSON documents. -/
def clean_and_parse {J : Type} (stripFences : String → String)
    (jsonLoads : String → Option J) (raw : String) : Except String J :=
  let clean := (stripFences raw).trim
  match jsonLoads clean with
  | some d => Except.ok d
  | none =>
    match extractBraces raw with
    | some sub =>
      match jsonLoads sub with
      | some d => Except.ok d
      | none =>
        Except.error ("Could not parse LLM output as JSON: " ++ raw.take 100 ++ "...")
    | none =>
      Except.error ("Could not parse LLM output as JSON: " ++ raw.take 100 ++ "...")

/-- Response synthesized by the `except Exception` arm of `OpenRouterManager.ask`:
thought "System error occurred." and a single `system_error` action. -/
def systemErrorResponse (msg : String) : AgentResponse :=
  { thought := "System error occurred."
    action := some { name := "system_error", parameters := [("message", msg)] }
    actions := none }

/-- Response synthesized by the `except ValidationError` arm of
`OpenRouterManager.ask`: thought "Format error: ..." and a single
`recover_from_error` action. -/
def recoverResponse (ve : String) : AgentResponse :=
  { thought := "Format error: " ++ ve
    action := some { name := "recover_from_error", parameters := [("error", ve)] }
    actions := none }

/-- Embedding of `OpenRouterManager.ask` (`llm/llm.py` lines 115-147).
`transport` is the provider call returning the raw content (`Except.error` = it
raised). `validate` is pydantic's `AgentResponse.model_validate` (`Except.error`
= it raised `ValidationError`). The `ValueError` raised by `clean_and_parse` on
malformed JSON is NOT a pydantic `ValidationError`, so it is caught by the
`except Exception` arm and yields the `system_error` response; only a
`ValidationError` (structurally valid JSON failing schema validation) yields the
`recover_from_error` response. -/
def ask {J : Type} (stripFences : String → String) (jsonLoads : String → Option J)
    (validate : J → Except String AgentResponse)
    (transport : Except String String) : AgentResponse :=
  match transport with
  | Except.error e => systemErrorResponse e
  | Except.ok content =>
    match clean_and_parse stripFences jsonLoads content with
    | Except.error msg => systemErrorResponse msg
    | Except.ok d =>
      match validate d with
      | Except.error ve => recoverResponse ve
      | Except.ok resp => resp

/-- Configuration slice of `Agent.__init__` relevant to stepping. -/
structure AgentConfig where
  max_memory_messages : Nat
  context_window_tokens : Nat
  max_parallel_tools : Nat
  enable_parallel : Bool

/-- Rendering of one worker's successful return value in
`Agent._execute_parallel.run_action` / `Agent._execute_sequential`:
the tool result is tagged with the action name. `toolCall` models
`self.tools.call(action.name, params)` composed with `_format_observation`;
`Except.error` means the call raised. Parameter extraction
(`_extract_params`, which degrades to an empty map instead of raising) is
absorbed into the oracle since only the formatted text is observable here. -/
def slotRender (toolCall : ActionModel → Except String String)
    (a : ActionModel) : String :=
  match toolCall a with
  | Except.ok obs => "[" ++ a.name ++ "]: " ++ obs
  | Except.error e => "[Error]: " ++ e

/-- Embedding of `Agent._execute_sequential`: actions run in list order; an
exception from the tool boundary propagates (there is no try/except around
`self.tools.call` in the sequential path). -/
def execute_sequential (toolCall : ActionModel → Except String String) :
    List ActionModel → Except String (List String)
  | [] => Except.ok []
  | a :: rest =>
    match toolCall a with
    | Except.error e => Except.error e
    | Except.ok obs =>
      match execute_sequential toolCall rest with
      | Except.error e => Except.error e
      | Except.ok obss => Except.ok (("[" ++ a.name ++ "]: " ++ obs) :: obss)

/-- Model of a Python dict with Nat keys as an insertion-ordered association
list: assignment overwrites an existing key in place and appends a fresh key.
Used for the `results` dict of `Agent._execute_parallel` and for
`PlanProgress.steps_progress`. -/
def dinsert {V : Type} (k : Nat) (v : V) : List (Nat × V) → List (Nat × V)
  | [] => [(k, v)]
  | (k', v') :: rest =>
    if k' = k then (k', v) :: rest else (k', v') :: dinsert k v rest

/-- Lookup in the modelled dict. -/
def dlookup {V : Type} (k : Nat) : List (Nat × V) → Option V
  | [] => none
  | (k', v') :: rest => if k' = k then some v' else dlookup k rest

/-- Keys of the modelled dict, in insertion order. -/
def dkeys {V : Type} (d : List (Nat × V)) : List Nat := d.map Prod.fst

/-- Result slot computed by the worker for submission index `i` (the
`futures[future]` index): the rendered observation when the worker returns,
or the bare segment built in the `except` arm of the `as_completed` loop —
which names no action — when the worker raises. -/
def parallelSlot (toolCall : ActionModel → Except String String)
    (toRun : List ActionModel) (i : Nat) : String :=
  match toRun[i]? with
  | some a =>
    match toolCall a with
    | Except.ok obs => "[" ++ a.name ++ "]: " ++ obs
    | Except.error e => "[Error]: " ++ e
  | none => ""

/-- Embedding of `Agent._execute_parallel` (`agent.py` lines 164-202): the first
`max_parallel_tools` actions are submitted with their indices; `completionOrder`
is the nondeterministic order in which `as_completed` yields the futures (any
permutation of the submitted indices); results are collected into a dict keyed
by submission index and finally read out over the numerically sorted keys. -/
def execute_parallel (maxPar : Nat) (toolCall : ActionModel → Except String String)
    (actions : List ActionModel) (completionOrder : List Nat) : List String :=
  let toRun := actions.take maxPar
  let d := completionOrder.foldl
    (fun d i => dinsert i (parallelSlot toolCall toRun i) d) []
  ((dkeys d).insertionSort (· ≤ ·)).map (fun i => (dlookup i d).getD "")

/-- Outcome of one `Agent.step()` call: the continue flag it returns, the memory
after the call, and the list of actions actually dispatched to the tool
boundary. -/
structure StepOutcome where
  cont : Bool
  memory : List Message
  dispatched : List ActionModel
deriving Repr, DecidableEq

/-- Embedding of `Agent.step` (`agent.py` lines 87-137). `serialize` models
`json.dumps(response_data.model_dump_json())`; `response` is what `self.llm.ask`
returned (that layer never raises); `completionOrder` resolves the parallel
nondeterminism. An `Except.error` result models an exception escaping `step()`
(only possible from the sequential dispatch path). -/
def Agent.step (cfg : AgentConfig) (serialize : AgentResponse → String)
    (toolCall : ActionModel → Except String String) (completionOrder : List Nat)
    (memory : List Message) (response : AgentResponse) :
    Except String StepOutcome :=
  let mem1 := truncate_memory cfg.max_memory_messages cfg.context_window_tokens memory
  let mem2 := mem1 ++ [{ role := "assistant", content := serialize response }]
  let actions := response.get_actions
  if actions.isEmpty then
    Except.ok { cont := false, memory := mem2, dispatched := [] }
  else if actions.any (fun a => a.name == "finish") then
    Except.ok { cont := false, memory := mem2, dispatched := [] }
  else if cfg.enable_parallel ∧ actions.length > 1 then
    let observations := execute_parallel cfg.max_parallel_tools toolCall actions completionOrder
    let combined := String.intercalate "\n---\n" observations
    Except.ok
      { cont := true
        memory := mem2 ++ [{ role := "user", content := "Observation: " ++ combined }]
        dispatched := actions.take cfg.max_parallel_tools }
  else
    match execute_sequential toolCall actions with
    | Except.error e => Except.error e
    | Except.ok observations =>
      let combined := String.intercalate "\n---\n" observations
      Except.ok
        { cont := true
          memory := mem2 ++ [{ role := "user", content := "Observation: " ++ combined }]
          dispatched := actions }

lemma dinsert_fresh (k : Nat) (v : String) (d : List (Nat × String))
    (h : k ∉ dkeys d) : dinsert k v d = d ++ [(k, v)] := by
  induction d with
  | nil => rfl
  | cons p rest ih =>
      obtain ⟨k', v'⟩ := p
      have hk : k' ≠ k := by
        intro he; exact h (by simp [dkeys, he])
      have hrest : k ∉ dkeys rest := by
        intro hm; exact h (by simp [dkeys] at hm ⊢; exact Or.inr hm)
      simp [dinsert, hk, ih hrest]

lemma foldl_dinsert_fresh (f : Nat → String) :
    ∀ (ord : List Nat) (acc : List (Nat × String)), ord.Nodup →
      (∀ i ∈ ord, i ∉ dkeys acc) →
      ord.foldl (fun d i => dinsert i (f i) d) acc =
        acc ++ ord.map (fun i => (i, f i)) := by
  intro ord
  induction ord with
  | nil => intro acc _ _; simp
  | cons i rest ih =>
      intro acc hnd hfresh
      have hi : i ∉ dkeys acc := hfresh i (by simp)
      have hstep : dinsert i (f i) acc = acc ++ [(i, f i)] := dinsert_fresh i (f i) acc hi
      have hrest : ∀ j ∈ rest, j ∉ dkeys (acc ++ [(i, f i)]) := by
        intro j hj hmem
        simp [dkeys] at hmem
        rcases hmem with hmem | hmem
        · exact hfresh j (by simp [hj]) (by simpa [dkeys] using hmem)
        · exact (List.nodup_cons.mp hnd).1 (hmem ▸ hj)
      calc (i :: rest).foldl (fun d i => dinsert i (f i) d) acc
          = rest.foldl (fun d i => dinsert i (f i) d) (acc ++ [(i, f i)]) := by
            simp [List.foldl_cons, hstep]
        _ = (acc ++ [(i, f i)]) ++ rest.map (fun j => (j, f j)) :=
            ih (acc ++ [(i, f i)]) (List.nodup_cons.mp hnd).2 hrest
        _ = acc ++ (i :: rest).map (fun j => (j, f j)) := by simp

lemma dlookup_map_self (f : Nat → String) (i : Nat) :
    ∀ ord : List Nat, i ∈ ord →
      dlookup i (ord.map (fun j => (j, f j))) = some (f i) := by
  intro ord
  induction ord with
  | nil => intro h; simp at h
  | cons j rest ih =>
      intro hmem
      by_cases hji : j = i
      · simp [dlookup, hji]
      · have : i ∈ rest := by
          rcases List.mem_cons.mp hmem with h | h
          · exact absurd h.symm hji
          · exact h
        simp [dlookup, hji, ih this]

lemma dkeys_map_self (f : Nat → String) (ord : List Nat) :
    dkeys (ord.map (fun j => (j, f j))) = ord := by
  simp [dkeys, List.map_map]
  exact List.map_id ord

/-- Amended C3: the joined observation list of parallel dispatch is in original
submission order regardless of worker completion order, and each slot depends
only on its own action's outcome (sibling isolation); however, when the worker
for an action raises, that slot is rendered by the `except` arm as a segment of
the form "[Error]: ..." that does NOT name the action (only a tool failure
caught inside the tool manager's own `call`, which returns normally, yields a
"[name]: Error: ..." segment). -/
theorem execute_parallel_submission_order (maxPar : Nat)
    (toolCall : ActionModel → Except String String) (actions : List ActionModel)
    (completionOrder : List Nat)
    (hperm : completionOrder.Perm (List.range (actions.take maxPar).length)) :
    execute_parallel maxPar toolCall actions completionOrder =
      (actions.take maxPar).map (slotRender toolCall) := by
  set toRun := actions.take maxPar with htoRun
  set n := toRun.length with hn
  set f : Nat → String := parallelSlot toolCall toRun with hf
  have hnd : completionOrder.Nodup := hperm.nodup_iff.mpr (List.nodup_range n)
  have hbuild : completionOrder.foldl (fun d i => dinsert i (f i) d) [] =
      completionOrder.map (fun i => (i, f i)) := by
    simpa using foldl_dinsert_fresh f completionOrder [] hnd (by simp [dkeys])
  have hkeys : dkeys (completionOrder.map (fun i => (i, f i))) = completionOrder :=
    dkeys_map_self f completionOrder
  have hsorted : completionOrder.insertionSort (· ≤ ·) = List.range n := by
    exact List.eq_of_perm_of_sorted (r := (· ≤ ·))
      ((List.perm_insertionSort _ _).trans hperm)
      (List.sorted_insertionSort _ _) (List.sorted_le_range n)
  have hmain : execute_parallel maxPar toolCall actions completionOrder =
      (List.range n).map (fun i => (dlookup i
        (completionOrder.map (fun j => (j, f j)))).getD "") := by
    rw [execute_parallel]
    rw [← htoRun, ← hf, hbuild, hkeys, hsorted]
  rw [hmain]
  apply List.ext_getElem
  · simp
  · intro i h1 h2
    have hilt : i < n := by simpa using h1
    have himem : i ∈ completionOrder := hperm.mem_iff.mpr (by simpa using hilt)
    have hlook := dlookup_map_self f i completionOrder himem
    simp only [List.getElem_map, List.getElem_range, hlook, Option.getD_some]
    have hget : toRun[i]? = some toRun[i] := List.getElem?_eq_getElem hilt
    simp [hf, parallelSlot, slotRender, hget]

/-- Witness for the amended C3 on concrete inputs: completion order C, A, B
still yields the submission-order slot list. -/
theorem execute_parallel_submission_order_witness :
    ([2, 0, 1] : List Nat).Perm
        (List.range (([{ name := "A" }, { name := "B" }, { name := "C" }]
          : List ActionModel).take 5).length) ∧
    execute_parallel 5 (fun _ => Except.ok "ok")
        [{ name := "A" }, { name := "B" }, { name := "C" }] [2, 0, 1] =
      (([{ name := "A" }, { name := "B" }, { name := "C" }]
        : List ActionModel).take 5).map (slotRender (fun _ => Except.ok "ok")) :=
  ⟨by decide,
    execute_parallel_submission_order 5 (fun _ => Except.ok "ok")
      [{ name := "A" }, { name := "B" }, { name := "C" }] [2, 0, 1] (by decide)⟩

/-- Concrete tool oracle for the C3 counterexample: the worker for action "B"
raises with message "boom", the others return "ok". -/
def exToolCall (a : ActionModel) : Except String String :=
  if a.name = "B" then Except.error "boom" else Except.ok "ok"

/-- Concrete action list [A, B, C] for the C3 counterexample. -/
def exActions : List ActionModel :=
  [{ name := "A" }, { name := "B" }, { name := "C" }]

/-- Counterexample to C3 as stated: with actions [A, B, C], B's worker raising
"boom", and completion order C, A, B, the joined result is in submission order
but B's slot is "[Error]: boom" — an error segment that does not name action B
(the letter B does not occur in it), contradicting the claimed
"[B]: Error: ..." rendering. -/
theorem execute_parallel_error_slot_unnamed :
    execute_parallel 5 exToolCall exActions [2, 0, 1] =
      ["[A]: ok", "[Error]: boom", "[C]: ok"] ∧
    (execute_parallel 5 exToolCall exActions [2, 0, 1]) ≠
      ["[A]: ok", "[B]: Error: boom", "[C]: ok"] ∧
    ((execute_parallel 5 exToolCall exActions [2, 0, 1])[1]?.getD "").data.contains
      'B' = false := by
  refine ⟨by decide, by decide, by decide⟩

/-- C9: when the `actions` field is present but empty while a lone `action` is
also present, the effective action list is the single `action` (an empty
`actions` array does not yield the zero-action clean stop); the empty list is
returned exactly when `actions` is absent or empty and `action` is absent. -/
theorem get_actions_empty_list_falls_back (r : AgentResponse) (a : ActionModel) :
    (r.actions = some [] → r.action = some a → r.get_actions = [a]) ∧
    (r.get_actions = [] ↔
      (r.actions = none ∨ r.actions = some []) ∧ r.action = none) := by
  obtain ⟨t, act, acts⟩ := r
  constructor
  · intro hacts hact
    subst hacts; subst hact
    rfl
  · match acts, act with
    | none, none => simp [AgentResponse.get_actions]
    | none, some a' => simp [AgentResponse.get_actions]
    | some [], none => simp [AgentResponse.get_actions]
    | some [], some a' => simp [AgentResponse.get_actions]
    | some (b :: bs), none => simp [AgentResponse.get_actions]
    | some (b :: bs), some a' => simp [AgentResponse.get_actions]

/-- Witness for C9: on a concrete response with `actions = some []` and a lone
`action` named "ls", the effective list is that single action. -/
theorem get_actions_empty_list_falls_back_witness :
    ({ thought := "t", action := some { name := "ls" }, actions := some [] }
        : AgentResponse).get_actions = [{ name := "ls" }] :=
  (get_actions_empty_list_falls_back
    { thought := "t", action := some { name := "ls" }, actions := some [] }
    { name := "ls" }).1 rfl rfl

/-- C4: if the extracted action list is empty, `step()` returns false and the
memory after the call is exactly the truncated memory plus the serialized
assistant turn — no observation message is appended and nothing is dispatched;
if any extracted action is named "finish", `step()` likewise returns false
without dispatching any action. -/
theorem step_empty_or_finish_stops (cfg : AgentConfig)
    (serialize : AgentResponse → String)
    (toolCall : ActionModel → Except String String) (completionOrder : List Nat)
    (memory : List Message) (response : AgentResponse) :
    (response.get_actions = [] →
      Agent.step cfg serialize toolCall completionOrder memory response =
        Except.ok
          { cont := false
            memory := truncate_memory cfg.max_memory_messages
                cfg.context_window_tokens memory ++
              [{ role := "assistant", content := serialize response }]
            dispatched := [] }) ∧
    (response.get_actions.any (fun a => a.name == "finish") = true →
      Agent.step cfg serialize toolCall completionOrder memory response =
        Except.ok
          { cont := false
            memory := truncate_memory cfg.max_memory_messages
                cfg.context_window_tokens memory ++
              [{ role := "assistant", content := serialize response }]
            dispatched := [] }) := by
  constructor
  · intro hempty
    rw [Agent.step]
    simp [hempty]
  · intro hfinish
    rw [Agent.step]
    by_cases hempty : response.get_actions.isEmpty
    · simp [hempty]
    · simp [hempty, hfinish]

/-- Witness for C4: a concrete turn whose only action is named "finish" makes
`step()` return false with nothing dispatched and no observation appended. -/
theorem step_empty_or_finish_stops_witness :
    Agent.step
        { max_memory_messages := 50, context_window_tokens := 8000
          max_parallel_tools := 5, enable_parallel := true }
        (fun _ => "raw") (fun _ => Except.ok "ok") []
        [{ role := "system", content := "sys" }]
        { thought := "t", action := some { name := "finish" }, actions := none } =
      Except.ok
        { cont := false
          memory := [{ role := "system", content := "sys" },
            { role := "assistant", content := "raw" }]
          dispatched := [] } := by
  have h := (step_empty_or_finish_stops
    { max_memory_messages := 50, context_window_tokens := 8000
      max_parallel_tools := 5, enable_parallel := true }
    (fun _ => "raw") (fun _ => Except.ok "ok") []
    [{ role := "system", content := "sys" }]
    { thought := "t", action := some { name := "finish" }, actions := none }).2
    (by decide)
  rw [h]
  rfl

/-- Counterexample to C2 as stated: on the malformed model output "hello"
(which `json.loads` rejects and which contains no braced region), the layer
consumed by the orchestrator synthesizes a `system_error` action, not a
`recover_from_error` action. The oracles are instantiated with the behaviour of
the Python libraries on every input actually examined here: `json.loads` fails
on "hello" (bare word, invalid JSON), and the fence-stripping `re.sub` leaves
"hello" unchanged. -/
theorem ask_malformed_counterexample :
    ((ask (J := Unit) id (fun _ => none) (fun _ => Except.error "bad")
        (Except.ok "hello")).get_actions.map ActionModel.name) = ["system_error"] ∧
    ((ask (J := Unit) id (fun _ => none) (fun _ => Except.error "bad")
        (Except.ok "hello")).get_actions.map ActionModel.name) ≠
      ["recover_from_error"] := by
  refine ⟨by decide, by decide⟩

/-- Amended C2: for every model response whose raw text is malformed JSON (both
JSON parse attempts of `clean_and_parse` fail), the layer consumed by the
orchestrator synthesizes a turn whose single action is named `system_error`
(the `recover_from_error` action is reserved for output that parses as JSON but
fails schema validation), the subsequent `step()` call returns true so the loop
continues, and no exception reaches the caller. -/
theorem ask_malformed_synthesizes_system_error {J : Type}
    (stripFences : String → String) (jsonLoads : String → Option J)
    (validate : J → Except String AgentResponse) (content msg : String)
    (hfail : clean_and_parse stripFences jsonLoads content = Except.error msg)
    (cfg : AgentConfig) (serialize : AgentResponse → String)
    (toolCall : ActionModel → Except String String) (completionOrder : List Nat)
    (memory : List Message) (obs : String)
    (htool : toolCall { name := "system_error", parameters := [("message", msg)] } =
      Except.ok obs) :
    (ask stripFences jsonLoads validate (Except.ok content)).get_actions =
      [{ name := "system_error", parameters := [("message", msg)] }] ∧
    ∃ out, Agent.step cfg serialize toolCall completionOrder memory
        (ask stripFences jsonLoads validate (Except.ok content)) =
          Except.ok out ∧
      out.cont = true := by
  have hask : ask stripFences jsonLoads validate (Except.ok content) =
      systemErrorResponse msg := by
    rw [ask, hfail]
  have hacts : (ask stripFences jsonLoads validate (Except.ok content)).get_actions =
      [{ name := "system_error", parameters := [("message", msg)] }] := by
    rw [hask]; rfl
  refine ⟨hacts, ?_⟩
  rw [hask]
  have hstep : Agent.step cfg serialize toolCall completionOrder memory
      (systemErrorResponse msg) =
      Except.ok
        { cont := true
          memory := (truncate_memory cfg.max_memory_messages
              cfg.context_window_tokens memory ++
            [{ role := "assistant", content := serialize (systemErrorResponse msg) }]) ++
            [{ role := "user", content := "Observation: " ++
              String.intercalate "\n---\n" ["[system_error]: " ++ obs] }]
          dispatched := [{ name := "system_error", parameters := [("message", msg)] }] } := by
    rw [Agent.step]
    simp [systemErrorResponse, AgentResponse.get_actions, execute_sequential, htool]
  exact ⟨_, hstep, rfl⟩

/-- Witness for the amended C2 on fully concrete inputs: malformed content
"hello" with a default agent configuration yields the `system_error` turn and a
continuing step. -/
theorem ask_malformed_synthesizes_system_error_witness :
    (ask (J := Unit) id (fun _ => none) (fun _ => Except.error "bad")
        (Except.ok "hello")).get_actions =
      [{ name := "system_error"
         parameters := [("message",
           "Could not parse LLM output as JSON: hello...")] }] ∧
    ∃ out, Agent.step
        { max_memory_messages := 50, context_window_tokens := 8000
          max_parallel_tools := 5, enable_parallel := true }
        (fun _ => "raw") (fun _ => Except.ok "ok") []
        [{ role := "system", content := "sys" }]
        (ask (J := Unit) id (fun _ => none) (fun _ => Except.error "bad")
          (Except.ok "hello")) = Except.ok out ∧
      out.cont = true :=
  ask_malformed_synthesizes_system_error (J := Unit) id (fun _ => none)
    (fun _ => Except.error "bad") "hello"
    "Could not parse LLM output as JSON: hello..." rfl
    { max_memory_messages := 50, context_window_tokens := 8000
      max_parallel_tools := 5, enable_parallel := true }
    (fun _ => "raw") (fun _ => Except.ok "ok") []
    [{ role := "system", content := "sys" }] "ok" rfl

/-- Embedding of `StepStatus` (`plan_structures.py`). -/
inductive StepStatus where
  | NOT_STARTED
  | IN_PROGRESS
  | COMPLETED
  | FAILED
  | SKIPPED
  | BLOCKED
deriving Repr, DecidableEq

/-- Embedding of `Step` (`plan_mode.py`). -/
structure Step where
  step_id : Nat
  description : String
  tools : List String := []
  dependencies : List Nat := []
  expected_output : String := ""
deriving Repr, DecidableEq

/-- Embedding of `Plan` (`plan_mode.py`). -/
structure Plan where
  task : String
  steps : List Step := []
  description : String := ""
deriving Repr, DecidableEq

/-- Embedding of `StepProgress` (`plan_structures.py`). Timestamps are modelled
as Nat ticks supplied by the caller (`datetime.now()` is external);
`duration_seconds` is the tick difference. -/
structure StepProgress where
  step_id : Nat
  description : String := ""
  status : StepStatus := StepStatus.NOT_STARTED
  started_at : Option Nat := none
  completed_at : Option Nat := none
  duration_seconds : Option Nat := none
  observation : Option String := none
  error_message : Option String := none
  retry_count : Nat := 0
  subtasks : List (String × Bool) := []
  subtask_count : Nat := 0
  subtask_completed : Nat := 0
deriving Repr, DecidableEq

/-- Embedding of `PlanProgress` (`plan_structures.py`); `steps_progress` is the
dict keyed by step id. -/
structure PlanProgress where
  plan_id : String
  task : String
  total_steps : Nat
  steps_progress : List (Nat × StepProgress) := []
  overall_status : StepStatus := StepStatus.NOT_STARTED
deriving Repr, DecidableEq

/-- Count of COMPLETED entries of the progress dict, as computed inside
`PlanProgress.get_overall_progress`. -/
def countCompleted (d : List (Nat × StepProgress)) : Nat :=
  (d.filter (fun kv => kv.2.status == StepStatus.COMPLETED)).length

/-- Embedding of `PlanProgress.get_overall_progress` (`plan_structures.py`
lines 67-76): 0.0 for an empty dict, else `(completed / total_steps) * 100`
as exact rational arithmetic (Python uses float). -/
def get_overall_progress (p : PlanProgress) : ℚ :=
  if p.steps_progress.isEmpty then 0
  else ((countCompleted p.steps_progress : ℚ) / (p.total_steps : ℚ)) * 100

/-- Embedding of `PlanTodoManager` (`plan_todo.py`): the plan plus its progress. -/
structure PlanTodoManager where
  plan : Plan
  progress : PlanProgress
deriving Repr, DecidableEq

/-- Embedding of `PlanTodoManager.__init__` + `_initialize_steps`: one
NOT_STARTED `StepProgress` per plan step, keyed by step id (dict assignment
semantics), with `subtask_count = len(step.tools)`. -/
def initManager (plan : Plan) (plan_id : String) : PlanTodoManager :=
  { plan := plan
    progress :=
      { plan_id := plan_id
        task := plan.task
        total_steps := plan.steps.length
        steps_progress := plan.steps.foldl
          (fun d s => dinsert s.step_id
            { step_id := s.step_id
              description := s.description
              subtask_count := s.tools.length } d) [] } }

/-- Shared shape of the tracker's transition operations: unknown ids are no-ops
returning False, known ids get their entry replaced. -/
def modifyStep (m : PlanTodoManager) (step_id : Nat)
    (f : StepProgress → StepProgress) : Bool × PlanTodoManager :=
  match dlookup step_id m.progress.steps_progress with
  | none => (false, m)
  | some sp =>
    (true,
      { m with progress :=
        { m.progress with
          steps_progress := dinsert step_id (f sp) m.progress.steps_progress } })

/-- Embedding of `PlanTodoManager.start_step` (`plan_todo.py` lines 40-58):
unconditionally sets IN_PROGRESS and records the start time; there is no guard
on the current status. -/
def start_step (m : PlanTodoManager) (step_id : Nat) (now : Nat) :
    Bool × PlanTodoManager :=
  modifyStep m step_id
    (fun sp => { sp with status := StepStatus.IN_PROGRESS, started_at := some now })

/-- Embedding of `PlanTodoManager.complete_step` (`plan_todo.py` lines 82-106):
unconditionally sets COMPLETED, records completion time, the observation, and
the duration (0 if never started); no guard on the current status. -/
def complete_step (m : PlanTodoManager) (step_id : Nat) (observation : String)
    (now : Nat) : Bool × PlanTodoManager :=
  modifyStep m step_id
    (fun sp =>
      { sp with
        status := StepStatus.COMPLETED
        completed_at := some now
        observation := some observation
        duration_seconds := some (match sp.started_at with
          | some t => now - t
          | none => 0) })

/-- Embedding of `PlanTodoManager.fail_step` (`plan_todo.py` lines 108-129):
unconditionally sets FAILED, records completion time and the error text, and
increments `retry_count`; no guard on the current status. -/
def fail_step (m : PlanTodoManager) (step_id : Nat) (error_message : String)
    (now : Nat) : Bool × PlanTodoManager :=
  modifyStep m step_id
    (fun sp =>
      { sp with
        status := StepStatus.FAILED
        completed_at := some now
        error_message := some error_message
        retry_count := sp.retry_count + 1 })

/-- Embedding of `PlanTodoManager.skip_step`: unconditionally sets SKIPPED and
stores the reason as the observation. -/
def skip_step (m : PlanTodoManager) (step_id : Nat) (reason : String) :
    Bool × PlanTodoManager :=
  modifyStep m step_id
    (fun sp => { sp with status := StepStatus.SKIPPED, observation := some reason })

/-- Embedding of `PlanTodoManager.block_step`: unconditionally sets BLOCKED and
stores the reason as the observation. -/
def block_step (m : PlanTodoManager) (step_id : Nat) (reason : String) :
    Bool × PlanTodoManager :=
  modifyStep m step_id
    (fun sp => { sp with status := StepStatus.BLOCKED, observation := some reason })

/-- Test of the dependency-met condition of `check_dependencies`: the negation
of `if not dep_progress or dep_progress.status != StepStatus.COMPLETED`. -/
def depMetB (m : PlanTodoManager) (dep_id : Nat) : Bool :=
  match dlookup dep_id m.progress.steps_progress with
  | some dp => dp.status == StepStatus.COMPLETED
  | none => false

/-- Loop of `check_dependencies` over the declared dependencies, blocking the
step on the first unmet one with a reason naming it. -/
def checkDepsLoop (m : PlanTodoManager) (step_id : Nat) :
    List Nat → Bool × PlanTodoManager
  | [] => (true, m)
  | dep :: rest =>
    if depMetB m dep then checkDepsLoop m step_id rest
    else (false, (block_step m step_id ("Depends on step " ++ toString dep)).2)

/-- Embedding of `PlanTodoManager.check_dependencies` (`plan_todo.py` lines
173-198): no-op returning False for an unknown id, otherwise scans the step's
declared dependencies in order. -/
def check_dependencies (m : PlanTodoManager) (step_id : Nat) :
    Bool × PlanTodoManager :=
  match dlookup step_id m.progress.steps_progress with
  | none => (false, m)
  | some _ =>
    match m.plan.steps.find? (fun s => s.step_id == step_id) with
    | none => (false, m)
    | some step => checkDepsLoop m step_id step.dependencies

lemma dlookup_dinsert_self {V : Type} (k : Nat) (v : V) (d : List (Nat × V)) :
    dlookup k (dinsert k v d) = some v := by
  induction d with
  | nil => simp [dinsert, dlookup]
  | cons p rest ih =>
      obtain ⟨k', v'⟩ := p
      by_cases hk : k' = k
      · simp [dinsert, dlookup, hk]
      · simp [dinsert, dlookup, hk, ih]

lemma dlookup_some_ne_nil {V : Type} (k : Nat) (v : V) (d : List (Nat × V))
    (h : dlookup k d = some v) : d ≠ [] := by
  intro he; subst he; simp [dlookup] at h

lemma mem_dinsert {V : Type} (k : Nat) (v : V) (d : List (Nat × V)) :
    ∀ kv ∈ dinsert k v d, kv = (k, v) ∨ kv ∈ d := by
  induction d with
  | nil => intro kv hkv; simp [dinsert] at hkv; exact Or.inl hkv
  | cons p rest ih =>
      obtain ⟨k', v'⟩ := p
      intro kv hkv
      by_cases hk : k' = k
      · subst hk
        simp [dinsert] at hkv
        rcases hkv with h | h
        · exact Or.inl (by simp [h])
        · exact Or.inr (by simp [h])
      · simp [dinsert, hk] at hkv
        rcases hkv with h | h
        · exact Or.inr (by simp [h])
        · rcases ih kv h with h' | h'
          · exact Or.inl h'
          · exact Or.inr (by simp [h'])

lemma dinsert_dinsert_same {V : Type} (k : Nat) (v1 v2 : V) (d : List (Nat × V)) :
    dinsert k v2 (dinsert k v1 d) = dinsert k v2 d := by
  induction d with
  | nil => simp [dinsert]
  | cons p rest ih =>
      obtain ⟨k', v'⟩ := p
      by_cases hk : k' = k
      · simp [dinsert, hk]
      · simp [dinsert, hk, ih]

lemma depMetB_iff (m : PlanTodoManager) (d : Nat) :
    depMetB m d = true ↔
      ∃ dp, dlookup d m.progress.steps_progress = some dp ∧
        dp.status = StepStatus.COMPLETED := by
  rw [depMetB]
  cases h : dlookup d m.progress.steps_progress with
  | none => simp
  | some dp =>
      simp only [beq_iff_eq]
      constructor
      · intro hs; exact ⟨dp, rfl, hs⟩
      · rintro ⟨dp', heq, hs⟩
        cases heq; exact hs

lemma checkDepsLoop_all_met (m : PlanTodoManager) (step_id : Nat) :
    ∀ deps : List Nat, (∀ d ∈ deps, depMetB m d = true) →
      checkDepsLoop m step_id deps = (true, m) := by
  intro deps
  induction deps with
  | nil => intro _; rfl
  | cons dep rest ih =>
      intro hall
      have hdep : depMetB m dep = true := hall dep (by simp)
      rw [checkDepsLoop, if_pos hdep]
      exact ih (fun d hd => hall d (by simp [hd]))

lemma checkDepsLoop_unmet (m : PlanTodoManager) (step_id : Nat) :
    ∀ deps : List Nat, ¬ (∀ d ∈ deps, depMetB m d = true) →
      ∃ d ∈ deps, depMetB m d = false ∧
        checkDepsLoop m step_id deps =
          (false, (block_step m step_id ("Depends on step " ++ toString d)).2) := by
  intro deps
  induction deps with
  | nil => intro h; exact absurd (by intro d hd; simp at hd) h
  | cons dep rest ih =>
      intro hnall
      by_cases hdep : depMetB m dep = true
      · have hrest : ¬ (∀ d ∈ rest, depMetB m d = true) := by
          intro hall
          exact hnall (by
            intro d hd
            rcases List.mem_cons.mp hd with h | h
            · exact h ▸ hdep
            · exact hall d h)
        obtain ⟨d, hd, hdf, heq⟩ := ih hrest
        refine ⟨d, by simp [hd], hdf, ?_⟩
        rw [checkDepsLoop, if_pos hdep, heq]
      · refine ⟨dep, by simp, by simpa using hdep, ?_⟩
        rw [checkDepsLoop, if_neg hdep]

/-- C5: `check_dependencies` returns true iff every declared dependency of the
step has status COMPLETED; when some dependency is unmet the step is
transitioned to BLOCKED with a reason naming the (first) unmet dependency and
false is returned; for an id unknown to the tracker the operation is a no-op
returning false. -/
theorem check_dependencies_correct (m : PlanTodoManager) (step_id : Nat) :
    (dlookup step_id m.progress.steps_progress = none →
      check_dependencies m step_id = (false, m)) ∧
    (∀ sp step, dlookup step_id m.progress.steps_progress = some sp →
      m.plan.steps.find? (fun s => s.step_id == step_id) = some step →
      ((check_dependencies m step_id).1 = true ↔
        ∀ d ∈ step.dependencies, ∃ dp,
          dlookup d m.progress.steps_progress = some dp ∧
            dp.status = StepStatus.COMPLETED) ∧
      ((check_dependencies m step_id).1 = true →
        (check_dependencies m step_id).2 = m) ∧
      ((check_dependencies m step_id).1 = false →
        ∃ d ∈ step.dependencies,
          ¬ (∃ dp, dlookup d m.progress.steps_progress = some dp ∧
              dp.status = StepStatus.COMPLETED) ∧
          dlookup step_id (check_dependencies m step_id).2.progress.steps_progress =
            some { sp with
              status := StepStatus.BLOCKED
              observation := some ("Depends on step " ++ toString d) })) := by
  constructor
  · intro hnone
    rw [check_dependencies, hnone]
  · intro sp step hsp hfind
    have hck : check_dependencies m step_id =
        checkDepsLoop m step_id step.dependencies := by
      rw [check_dependencies, hsp, hfind]
    by_cases hall : ∀ d ∈ step.dependencies, depMetB m d = true
    · have heq := checkDepsLoop_all_met m step_id step.dependencies hall
      rw [hck, heq]
      refine ⟨?_, fun _ => rfl, ?_⟩
      · simp only [true_iff]
        intro d hd
        exact (depMetB_iff m d).mp (hall d hd)
      · intro hfalse; simp at hfalse
    · obtain ⟨d, hd, hdf, heq⟩ := checkDepsLoop_unmet m step_id step.dependencies hall
      rw [hck, heq]
      refine ⟨?_, ?_, ?_⟩
      · simp only [Bool.false_eq_true, false_iff]
        intro hcontr
        exact hall (fun d' hd' => (depMetB_iff m d').mpr (hcontr d' hd'))
      · intro htrue; simp at htrue
      · intro _
        refine ⟨d, hd, ?_, ?_⟩
        · intro hcontr
          rw [← depMetB_iff m d] at hcontr
          rw [hdf] at hcontr
          exact Bool.false_ne_true hcontr
        · rw [block_step, modifyStep, hsp]
          exact dlookup_dinsert_self _ _ _

/-- Concrete plan with two steps, step 2 depending on step 1, used by the
tracker witnesses and counterexamples. -/
def twoStepPlan : Plan :=
  { task := "t"
    steps := [{ step_id := 1, description := "s1" },
              { step_id := 2, description := "s2", dependencies := [1] }] }

/-- Witness for C5: on the freshly initialized two-step tracker, checking the
dependencies of step 2 (which depends on the NOT_STARTED step 1) returns false
and blocks step 2 with a reason naming step 1. -/
theorem check_dependencies_correct_witness :
    (check_dependencies (initManager twoStepPlan "p") 2).1 = false ∧
    (dlookup 2
        ((check_dependencies (initManager twoStepPlan "p") 2).2).progress.steps_progress).map
      StepProgress.status = some StepStatus.BLOCKED ∧
    (dlookup 2
        ((check_dependencies (initManager twoStepPlan "p") 2).2).progress.steps_progress).map
      StepProgress.observation = some (some "Depends on step 1") := by
  have h := (check_dependencies_correct (initManager twoStepPlan "p") 2).2
    { step_id := 2, description := "s2", subtask_count := 0 }
    { step_id := 2, description := "s2", dependencies := [1] }
    (by decide) (by decide)
  have hfalse : (check_dependencies (initManager twoStepPlan "p") 2).1 = false := by
    cases hb : (check_dependencies (initManager twoStepPlan "p") 2).1
    · rfl
    · have hmet := h.1.mp hb 1 (by decide)
      obtain ⟨dp, hdp, hst⟩ := hmet
      have : dp = { step_id := 1, description := "s1", subtask_count := 0 } := by
        have hc : dlookup 1 (initManager twoStepPlan "p").progress.steps_progress =
            some { step_id := 1, description := "s1", subtask_count := 0 } := by decide
        rw [hc] at hdp
        exact (Option.some_inj.mp hdp).symm
      subst this
      simp at hst
  obtain ⟨d, hd, _, hlook⟩ := h.2.2 hfalse
  have hd1 : d = 1 := by simpa using hd
  subst hd1
  exact ⟨hfalse, by rw [hlook]; decide, by rw [hlook]; decide⟩

/-- Concrete one-step plan used by the tracker counterexamples. -/
def oneStepPlan : Plan :=
  { task := "t", steps := [{ step_id := 1, description := "s1" }] }

/-- Counterexample to C6 as stated: COMPLETED is not terminal — after
completing step 1 of a one-step plan, `start_step` moves it back to
IN_PROGRESS (the tracker operations carry no guard on the current status). -/
theorem tracker_completed_not_terminal :
    (dlookup 1
        ((complete_step (initManager oneStepPlan "p") 1 "done" 5).2).progress.steps_progress).map
      StepProgress.status = some StepStatus.COMPLETED ∧
    (dlookup 1
        ((start_step (complete_step (initManager oneStepPlan "p") 1 "done" 5).2 1 7).2).progress.steps_progress).map
      StepProgress.status = some StepStatus.IN_PROGRESS ∧
    StepStatus.IN_PROGRESS ≠ StepStatus.COMPLETED := by
  refine ⟨by decide, by decide, by decide⟩

/-- Amended C6: the tracker operations are unguarded — for any step id known to
the tracker, `start_step` sets IN_PROGRESS, `complete_step` sets COMPLETED,
`fail_step` sets FAILED (incrementing the retry count), `skip_step` sets
SKIPPED and `block_step` sets BLOCKED, each regardless of the step's current
status (so COMPLETED, FAILED and SKIPPED are not enforced as terminal); for an
unknown id every operation is a no-op returning false. -/
theorem tracker_ops_unguarded (m : PlanTodoManager) (step_id now : Nat)
    (sp : StepProgress) (obs err reason : String)
    (hsp : dlookup step_id m.progress.steps_progress = some sp) :
    (dlookup step_id ((start_step m step_id now).2).progress.steps_progress).map
        StepProgress.status = some StepStatus.IN_PROGRESS ∧
    (dlookup step_id ((complete_step m step_id obs now).2).progress.steps_progress).map
        StepProgress.status = some StepStatus.COMPLETED ∧
    (dlookup step_id ((fail_step m step_id err now).2).progress.steps_progress).map
        StepProgress.status = some StepStatus.FAILED ∧
    (dlookup step_id ((fail_step m step_id err now).2).progress.steps_progress).map
        StepProgress.retry_count = some (sp.retry_count + 1) ∧
    (dlookup step_id ((skip_step m step_id reason).2).progress.steps_progress).map
        StepProgress.status = some StepStatus.SKIPPED ∧
    (dlookup step_id ((block_step m step_id reason).2).progress.steps_progress).map
        StepProgress.status = some StepStatus.BLOCKED ∧
    (∀ m' : PlanTodoManager, ∀ id' : Nat,
      dlookup id' m'.progress.steps_progress = none →
      start_step m' id' now = (false, m') ∧
      complete_step m' id' obs now = (false, m') ∧
      fail_step m' id' err now = (false, m') ∧
      skip_step m' id' reason = (false, m') ∧
      block_step m' id' reason = (false, m')) := by
  refine ⟨?_, ?_, ?_, ?_, ?_, ?_, ?_⟩
  · rw [start_step, modifyStep, hsp]; simp [dlookup_dinsert_self]
  · rw [complete_step, modifyStep, hsp]; simp [dlookup_dinsert_self]
  · rw [fail_step, modifyStep, hsp]; simp [dlookup_dinsert_self]
  · rw [fail_step, modifyStep, hsp]; simp [dlookup_dinsert_self]
  · rw [skip_step, modifyStep, hsp]; simp [dlookup_dinsert_self]
  · rw [block_step, modifyStep, hsp]; simp [dlookup_dinsert_self]
  · intro m' id' hnone
    refine ⟨?_, ?_, ?_, ?_, ?_⟩ <;>
      simp [start_step, complete_step, fail_step, skip_step, block_step,
        modifyStep, hnone]

/-- Witness for the amended C6 on the concrete one-step tracker. -/
theorem tracker_ops_unguarded_witness :
    (dlookup 1
        ((start_step (initManager oneStepPlan "p") 1 3).2).progress.steps_progress).map
      StepProgress.status = some StepStatus.IN_PROGRESS ∧
    (dlookup 1
        ((skip_step (initManager oneStepPlan "p") 1 "skip").2).progress.steps_progress).map
      StepProgress.status = some StepStatus.SKIPPED :=
  have h := tracker_ops_unguarded (initManager oneStepPlan "p") 1 3
    { step_id := 1, description := "s1", subtask_count := 0 } "o" "e" "skip"
    (by decide)
  ⟨h.1, h.2.2.2.2.1⟩

lemma countCompleted_le_length (d : List (Nat × StepProgress)) :
    countCompleted d ≤ d.length :=
  List.length_filter_le _ d

lemma countCompleted_dinsert_completed_ge (k : Nat) (v : StepProgress)
    (hv : v.status = StepStatus.COMPLETED) (d : List (Nat × StepProgress)) :
    countCompleted d ≤ countCompleted (dinsert k v d) := by
  induction d with
  | nil => simp [dinsert, countCompleted]
  | cons p rest ih =>
      obtain ⟨k', v'⟩ := p
      by_cases hk : k' = k
      · simp only [dinsert, if_pos hk, countCompleted, List.filter_cons]
        by_cases hv' : v'.status = StepStatus.COMPLETED <;>
          simp [hv, hv', countCompleted]
      · simp only [dinsert, if_neg hk, countCompleted, List.filter_cons]
        by_cases hv' : v'.status = StepStatus.COMPLETED <;>
          simpa [hv', countCompleted] using ih

lemma ratProgressMono (c c' t : Nat) (h : c ≤ c') :
    ((c : ℚ) / (t : ℚ)) * 100 ≤ ((c' : ℚ) / (t : ℚ)) * 100 := by
  rcases Nat.eq_zero_or_pos t with h0 | hpos
  · subst h0; simp
  · have ht : (0 : ℚ) < (t : ℚ) := by exact_mod_cast hpos
    have hq : (c : ℚ) ≤ (c' : ℚ) := by exact_mod_cast h
    exact mul_le_mul_of_nonneg_right ((div_le_div_iff_of_pos_right ht).mpr hq) (by norm_num)

lemma dinsert_ne_nil {V : Type} (k : Nat) (v : V) (d : List (Nat × V)) :
    dinsert k v d ≠ [] := by
  cases d with
  | nil => simp [dinsert]
  | cons p rest =>
      obtain ⟨k', v'⟩ := p
      by_cases hk : k' = k <;> simp [dinsert, hk]

/-- Counterexample to C7 as stated: overall progress is not monotonically
non-decreasing across tracker operations — completing the only step of a
one-step plan takes progress to 100, and a subsequent `start_step` on that same
step takes it back to 0. -/
theorem overall_progress_not_monotone :
    get_overall_progress
        ((complete_step (initManager oneStepPlan "p") 1 "done" 5).2).progress = 100 ∧
    get_overall_progress
        ((start_step (complete_step (initManager oneStepPlan "p") 1 "done" 5).2 1 7).2).progress = 0 ∧
    ¬ ((100 : ℚ) ≤ 0) := by
  refine ⟨?_, ?_, by norm_num⟩
  · rw [get_overall_progress, if_neg (by decide)]
    have h1 : countCompleted
        ((complete_step (initManager oneStepPlan "p") 1 "done" 5).2).progress.steps_progress = 1 := by
      decide
    have h2 : ((complete_step (initManager oneStepPlan "p") 1 "done" 5).2).progress.total_steps = 1 := by
      decide
    rw [h1, h2]
    norm_num
  · rw [get_overall_progress, if_neg (by decide)]
    have h1 : countCompleted
        ((start_step (complete_step (initManager oneStepPlan "p") 1 "done" 5).2 1 7).2).progress.steps_progress = 0 := by
      decide
    rw [h1]
    norm_num

/-- Amended C7: overall progress equals 100 × completed / total_steps (0 for an
empty tracker), lies between 0 and 100 whenever the completed count does not
exceed the step total, and is monotonically non-decreasing under `complete_step`
operations — it can decrease only when an operation such as `start_step` or
`fail_step` re-transitions an already COMPLETED step; with 3 steps of which
exactly 1 is COMPLETED the value is 100/3 = 33.33…, within 0.1 of 33.3. -/
theorem overall_progress_bounds_and_complete_monotone (p : PlanProgress)
    (m : PlanTodoManager) (step_id : Nat) (obs : String) (now : Nat)
    (hle : countCompleted p.steps_progress ≤ p.total_steps) :
    0 ≤ get_overall_progress p ∧
    get_overall_progress p ≤ 100 ∧
    get_overall_progress m.progress ≤
      get_overall_progress ((complete_step m step_id obs now).2).progress := by
  refine ⟨?_, ?_, ?_⟩
  · rw [get_overall_progress]
    split
    · exact le_refl 0
    · positivity
  · rw [get_overall_progress]
    split
    · norm_num
    · rcases Nat.eq_zero_or_pos p.total_steps with h0 | hpos
      · have hc0 : countCompleted p.steps_progress = 0 := by omega
        rw [hc0, h0]
        norm_num
      · have ht : (0 : ℚ) < (p.total_steps : ℚ) := by exact_mod_cast hpos
        have hdiv : (countCompleted p.steps_progress : ℚ) / (p.total_steps : ℚ) ≤ 1 := by
          rw [div_le_one ht]
          exact_mod_cast hle
        nlinarith
  · rw [complete_step, modifyStep]
    cases hsp : dlookup step_id m.progress.steps_progress with
    | none => exact le_refl _
    | some sp =>
        simp only
        rw [get_overall_progress, get_overall_progress]
        have hne : ¬ m.progress.steps_progress.isEmpty := by
          have := dlookup_some_ne_nil step_id sp m.progress.steps_progress hsp
          simpa [List.isEmpty_iff] using this
        have hne' : ¬ (dinsert step_id
            { sp with
              status := StepStatus.COMPLETED
              completed_at := some now
              observation := some obs
              duration_seconds := some (match sp.started_at with
                | some t => now - t
                | none => 0) } m.progress.steps_progress).isEmpty := by
          simpa [List.isEmpty_iff] using dinsert_ne_nil step_id _ m.progress.steps_progress
        rw [if_neg (by simpa using hne), if_neg (by simpa using hne')]
        simp only
        exact ratProgressMono _ _ _
          (countCompleted_dinsert_completed_ge step_id _ rfl m.progress.steps_progress)

/-- Witness for the amended C7: the two-step tracker with no completed steps
sits at 0 ≤ progress ≤ 100, and completing a step never lowers progress; a
3-step tracker with exactly one COMPLETED step reports 100/3, within 0.1 of
33.3. -/
theorem overall_progress_bounds_witness :
    (0 ≤ get_overall_progress (initManager twoStepPlan "p").progress ∧
      get_overall_progress (initManager twoStepPlan "p").progress ≤ 100 ∧
      get_overall_progress (initManager twoStepPlan "p").progress ≤
        get_overall_progress
          ((complete_step (initManager twoStepPlan "p") 1 "done" 5).2).progress) ∧
    get_overall_progress
        ((complete_step (initManager
          { task := "t3"
            steps := [{ step_id := 1, description := "a" },
                      { step_id := 2, description := "b" },
                      { step_id := 3, description := "c" }] } "p") 1 "done" 5).2).progress =
      100 / 3 ∧
    |(100 / 3 : ℚ) - 333 / 10| ≤ 1 / 10 := by
  refine ⟨?_, ?_, by norm_num [abs_le]⟩
  case refine_2 =>
    rw [get_overall_progress, if_neg (by decide)]
    have h1 : countCompleted
        ((complete_step (initManager
          { task := "t3"
            steps := [{ step_id := 1, description := "a" },
                      { step_id := 2, description := "b" },
                      { step_id := 3, description := "c" }] } "p") 1 "done" 5).2).progress.steps_progress = 1 := by
      decide
    have h2 : ((complete_step (initManager
          { task := "t3"
            steps := [{ step_id := 1, description := "a" },
                      { step_id := 2, description := "b" },
                      { step_id := 3, description := "c" }] } "p") 1 "done" 5).2).progress.total_steps = 3 := by
      decide
    rw [h1, h2]
    norm_num
  have h := overall_progress_bounds_and_complete_monotone
    (initManager twoStepPlan "p").progress (initManager twoStepPlan "p")
    1 "done" 5 (by decide)
  exact h

/-- Embedding of Python's `str.find` (first index at which `needle` starts in
the remaining haystack, counting from `i`; `none` models the -1 "not found"
result). -/
def findSubFrom (needle : List Char) : List Char → Nat → Option Nat
  | [], i => if needle.isPrefixOf ([] : List Char) then some i else none
  | c :: t, i =>
    if needle.isPrefixOf (c :: t) then some i else findSubFrom needle t (i + 1)

/-- Embedding of the Python slice `text[start:end]` used in
`PlanGenerator._parse_plan`, where `end` is the result of `str.find` — a
non-negative index when found (`some e`) or -1 when not found (`none`, making
the slice run to the last character excluded). -/
def pySlice (cs : List Char) (start : Nat) (endIdx : Option Nat) : List Char :=
  match endIdx with
  | some e => (cs.take e).drop start
  | none => cs.dropLast.drop start

/-- Embedding of the text-extraction part of `PlanGenerator._parse_plan`
(`plan_mode.py` lines 195-211): strip, cut out a ```json fenced block (else a
bare ``` fenced block) when present, then slice from the first opening brace to
the last closing brace when the latter follows the former. -/
def extractPlanText (response_text : String) : String :=
  let text := response_text.trim
  let cs := text.data
  let fenceJson := "```json".data
  let fence := "```".data
  let text2 :=
    match findSubFrom fenceJson cs 0 with
    | some s =>
      let start := s + 7
      let e := (findSubFrom fence (cs.drop start) 0).map (fun i => start + i)
      (String.mk (pySlice cs start e)).trim
    | none =>
      match findSubFrom fence cs 0 with
      | some s =>
        let start := s + 3
        let e := (findSubFrom fence (cs.drop start) 0).map (fun i => start + i)
        (String.mk (pySlice cs start e)).trim
      | none => text
  match extractBraces text2 with
  | some sub => sub
  | none => text2

/-- Decoded JSON step dict as accessed by `_parse_plan` via `.get` with
defaults: every field optional. -/
structure StepJson where
  step_id : Option Nat := none
  description : Option String := none
  tools : Option (List String) := none
  dependencies : Option (List Nat) := none
  expected_output : Option String := none
deriving Repr, DecidableEq

/-- Decoded JSON plan dict as accessed by `_parse_plan` via `.get` with
defaults. -/
structure PlanJson where
  task : Option String := none
  description : Option String := none
  steps : Option (List StepJson) := none
deriving Repr, DecidableEq

/-- Step-building loop of `_parse_plan`: `n` is the number of steps already
built (`len(steps)`), supplying the `step_id` default `len(steps) + 1`. -/
def buildStepsGo : Nat → List StepJson → List Step
  | _, [] => []
  | n, sj :: rest =>
    { step_id := sj.step_id.getD (n + 1)
      description := sj.description.getD ""
      tools := sj.tools.getD []
      dependencies := sj.dependencies.getD []
      expected_output := sj.expected_output.getD "" } :: buildStepsGo (n + 1) rest

/-- Embedding of `PlanGenerator._create_fallback_plan` (`plan_mode.py` lines
235-256): a single step whose description is the task verbatim, with no tools
and no dependencies. -/
def create_fallback_plan (task : String) : Plan :=
  { task := task
    steps := [{ step_id := 1
                description := task
                tools := []
                dependencies := []
                expected_output := "Task completed" }]
    description := "Fallback single-step plan" }

/-- Embedding of `PlanGenerator._parse_plan` (`plan_mode.py` lines 184-233).
`decode` stands for `json.loads` on the extracted text together with the typed
dict accesses; `none` covers the caught `JSONDecodeError`/`KeyError`/`TypeError`
failures (an `AttributeError` from a non-dict top level escapes `_parse_plan`
but is caught by `generate`, with the same fallback result). -/
def parse_plan (decode : String → Option PlanJson)
    (response_text original_task : String) : Plan :=
  match decode (extractPlanText response_text) with
  | none => create_fallback_plan original_task
  | some pj =>
    { task := pj.task.getD original_task
      steps := buildStepsGo 0 (pj.steps.getD [])
      description := pj.description.getD "" }

/-- Embedding of `PlanGenerator.generate` (`plan_mode.py` lines 118-158):
`modelCall` is `self.llm.plan_ask` returning the response text (`Except.error`
= it raised; the outer try/except then yields the fallback). -/
def generate (decode : String → Option PlanJson)
    (modelCall : Except String String) (task : String) : Plan :=
  match modelCall with
  | Except.error _ => create_fallback_plan task
  | Except.ok response_text => parse_plan decode response_text task

/-- C8: on any parse failure (or a raising model call), plan generation returns
the fallback Plan: exactly one step, whose description is the original task
verbatim and whose dependency list is empty, so a usable Plan object is always
produced and nothing is raised. -/
theorem generate_falls_back_on_parse_failure (decode : String → Option PlanJson)
    (task : String) (modelCall : Except String String)
    (hfail : (∃ e, modelCall = Except.error e) ∨
      (∃ text, modelCall = Except.ok text ∧
        decode (extractPlanText text) = none)) :
    generate decode modelCall task = create_fallback_plan task ∧
    (generate decode modelCall task).steps.length = 1 ∧
    ∀ s ∈ (generate decode modelCall task).steps,
      s.description = task ∧ s.dependencies = [] := by
  have hgen : generate decode modelCall task = create_fallback_plan task := by
    rcases hfail with ⟨e, he⟩ | ⟨text, hok, hdec⟩
    · rw [he, generate]
    · rw [hok, generate, parse_plan, hdec]
  refine ⟨hgen, ?_, ?_⟩
  · rw [hgen]; rfl
  · rw [hgen]
    intro s hs
    simp [create_fallback_plan] at hs
    subst hs
    exact ⟨rfl, rfl⟩

/-- Witness for C8: a decode oracle that always fails (as `json.loads` does on
the non-JSON reply "no plan today") makes `generate` return the single-step
fallback for the concrete task. -/
theorem generate_falls_back_on_parse_failure_witness :
    generate (fun _ => none) (Except.ok "no plan today") "build the feature" =
      create_fallback_plan "build the feature" ∧
    (generate (fun _ => none) (Except.ok "no plan today") "build the feature").steps.length = 1 ∧
    ∀ s ∈ (generate (fun _ => none) (Except.ok "no plan today") "build the feature").steps,
      s.description = "build the feature" ∧ s.dependencies = [] :=
  generate_falls_back_on_parse_failure (fun _ => none) "build the feature"
    (Except.ok "no plan today") (Or.inr ⟨"no plan today", rfl, rfl⟩)

/-- Embedding of the iteration loop inside `BuildMode._execute_step`
(`build_mode.py` lines 112-120): up to `fuel = min(max_iterations_per_step,
remaining)` calls of `agent.step()`, breaking after a call that returns False or
after which the keyword heuristic `_is_step_done` fires. `agentContinue k` and
`stepDone k` are oracles giving those outcomes for the k-th global agent call
(`is_running` stays True throughout a single-threaded run). Returns the number
of agent steps used. -/
def runIterations (agentContinue stepDone : Nat → Bool) : Nat → Nat → Nat
  | 0, _ => 0
  | fuel + 1, k =>
    if agentContinue k = false ∨ stepDone k = true then 1
    else 1 + runIterations agentContinue stepDone fuel (k + 1)

/-- Embedding of `BuildMode._execute_step` (`build_mode.py` lines 93-126):
start the step, run the bounded iteration loop, then unconditionally mark the
step COMPLETED with the most recent observation (`lastObs` models
`_get_last_observation` as a function of the global call index, which also
serves as the clock). -/
def execute_step (agentContinue stepDone : Nat → Bool) (lastObs : Nat → String)
    (maxIterPerStep : Nat) (m : PlanTodoManager) (step : Step)
    (remaining k : Nat) : PlanTodoManager × Nat :=
  let m1 := (start_step m step.step_id k).2
  let used := runIterations agentContinue stepDone (min maxIterPerStep remaining) k
  let m2 := (complete_step m1 step.step_id (lastObs (k + used)) (k + used)).2
  (m2, used)

/-- Loop of `BuildMode.run` over the plan's steps in declared order: stop once
the global budget is exhausted; block steps whose dependency check fails
(`check_dependencies` already blocks with a reason, then `block_step` is called
again with its default reason); otherwise execute the step and accumulate the
agent steps used. -/
def buildGo (agentContinue stepDone : Nat → Bool) (lastObs : Nat → String)
    (maxIterPerStep max_steps : Nat) :
    List Step → PlanTodoManager → Nat → Nat → PlanTodoManager × Nat
  | [], m, total, _ => (m, total)
  | step :: rest, m, total, k =>
    if total ≥ max_steps then (m, total)
    else
      let ck := check_dependencies m step.step_id
      if ck.1 = false then
        let m2 := (block_step ck.2 step.step_id "Dependencies not met").2
        buildGo agentContinue stepDone lastObs maxIterPerStep max_steps rest m2 total k
      else
        let r := execute_step agentContinue stepDone lastObs maxIterPerStep
          ck.2 step (max_steps - total) k
        buildGo agentContinue stepDone lastObs maxIterPerStep max_steps rest
          r.1 (total + r.2) (k + r.2)

/-- Embedding of the plan-id derivation `task.replace(" ", "_")[:20]` in
`BuildMode.run`. -/
def planIdOf (task : String) : String :=
  String.mk ((task.data.map (fun c => if c = ' ' then '_' else c)).take 20)

/-- Embedding of `BuildMode.run` (`build_mode.py` lines 44-91): initialize the
tracker and walk the plan's steps under the global agent-step budget. Returns
the final tracker state and the total agent steps consumed. -/
def build_run (agentContinue stepDone : Nat → Bool) (lastObs : Nat → String)
    (maxIterPerStep : Nat) (plan : Plan) (task : String) (max_steps : Nat) :
    PlanTodoManager × Nat :=
  buildGo agentContinue stepDone lastObs maxIterPerStep max_steps plan.steps
    (initManager plan (planIdOf task)) 0 0

lemma block_step_entry_status (m : PlanTodoManager) (step_id : Nat) (r : String) :
    ∀ kv ∈ ((block_step m step_id r).2).progress.steps_progress,
      kv.2.status = StepStatus.BLOCKED ∨ kv ∈ m.progress.steps_progress := by
  intro kv hkv
  rw [block_step, modifyStep] at hkv
  cases hsp : dlookup step_id m.progress.steps_progress with
  | none => rw [hsp] at hkv; exact Or.inr hkv
  | some sp =>
      rw [hsp] at hkv
      simp only at hkv
      rcases mem_dinsert _ _ _ kv hkv with h | h
      · subst h; exact Or.inl rfl
      · exact Or.inr h

lemma checkDepsLoop_snd (m : PlanTodoManager) (step_id : Nat) :
    ∀ deps : List Nat, (checkDepsLoop m step_id deps).2 = m ∨
      ∃ r, (checkDepsLoop m step_id deps).2 = (block_step m step_id r).2 := by
  intro deps
  induction deps with
  | nil => exact Or.inl rfl
  | cons dep rest ih =>
      rw [checkDepsLoop]
      by_cases hdep : depMetB m dep = true
      · rw [if_pos hdep]; exact ih
      · rw [if_neg hdep]
        exact Or.inr ⟨_, rfl⟩

lemma check_dependencies_entry_status (m : PlanTodoManager) (step_id : Nat) :
    ∀ kv ∈ ((check_dependencies m step_id).2).progress.steps_progress,
      kv.2.status = StepStatus.BLOCKED ∨ kv ∈ m.progress.steps_progress := by
  intro kv hkv
  rw [check_dependencies] at hkv
  cases hsp : dlookup step_id m.progress.steps_progress with
  | none => rw [hsp] at hkv; exact Or.inr hkv
  | some sp =>
      rw [hsp] at hkv
      cases hfind : m.plan.steps.find? (fun s => s.step_id == step_id) with
      | none => rw [hfind] at hkv; exact Or.inr hkv
      | some step =>
          rw [hfind] at hkv
          rcases checkDepsLoop_snd m step_id step.dependencies with h | ⟨r, h⟩
          · rw [h] at hkv; exact Or.inr hkv
          · rw [h] at hkv
            exact block_step_entry_status m step_id r kv hkv

lemma execute_step_completes (agentContinue stepDone : Nat → Bool)
    (lastObs : Nat → String) (maxIterPerStep : Nat) (m : PlanTodoManager)
    (step : Step) (remaining k : Nat) (sp : StepProgress)
    (hsp : dlookup step.step_id m.progress.steps_progress = some sp) :
    ∃ spC, dlookup step.step_id
        ((execute_step agentContinue stepDone lastObs maxIterPerStep m step
          remaining k).1).progress.steps_progress = some spC ∧
      spC.status = StepStatus.COMPLETED := by
  rw [execute_step]
  simp only
  rw [start_step, modifyStep, hsp]
  simp only
  rw [complete_step, modifyStep]
  simp only [dlookup_dinsert_self]
  exact ⟨_, rfl, rfl⟩

lemma execute_step_entry_status (agentContinue stepDone : Nat → Bool)
    (lastObs : Nat → String) (maxIterPerStep : Nat) (m : PlanTodoManager)
    (step : Step) (remaining k : Nat) :
    ∀ kv ∈ ((execute_step agentContinue stepDone lastObs maxIterPerStep m step
        remaining k).1).progress.steps_progress,
      kv.2.status = StepStatus.COMPLETED ∨ kv ∈ m.progress.steps_progress := by
  intro kv hkv
  rw [execute_step] at hkv
  simp only at hkv
  cases hsp : dlookup step.step_id m.progress.steps_progress with
  | none =>
      rw [start_step, modifyStep, hsp] at hkv
      simp only at hkv
      rw [complete_step, modifyStep, hsp] at hkv
      exact Or.inr hkv
  | some sp =>
      rw [start_step, modifyStep, hsp] at hkv
      simp only at hkv
      rw [complete_step, modifyStep] at hkv
      simp only [dlookup_dinsert_self] at hkv
      rw [dinsert_dinsert_same] at hkv
      rcases mem_dinsert _ _ _ kv hkv with h | h
      · subst h; exact Or.inl rfl
      · exact Or.inr h

/-- Statuses that can appear in a tracker driven only by Build mode. -/
def noFailedNoInProgress (m : PlanTodoManager) : Prop :=
  ∀ kv ∈ m.progress.steps_progress,
    kv.2.status ≠ StepStatus.FAILED ∧ kv.2.status ≠ StepStatus.IN_PROGRESS

lemma buildGo_preserves (agentContinue stepDone : Nat → Bool)
    (lastObs : Nat → String) (maxIterPerStep max_steps : Nat) :
    ∀ (steps : List Step) (m : PlanTodoManager) (total k : Nat),
      noFailedNoInProgress m →
      noFailedNoInProgress (buildGo agentContinue stepDone lastObs maxIterPerStep
        max_steps steps m total k).1 := by
  intro steps
  induction steps with
  | nil => intro m total k hm; exact hm
  | cons step rest ih =>
      intro m total k hm
      rw [buildGo]
      by_cases hbudget : total ≥ max_steps
      · rw [if_pos hbudget]; exact hm
      · rw [if_neg hbudget]
        simp only
        by_cases hck : (check_dependencies m step.step_id).1 = false
        · rw [if_pos hck]
          apply ih
          intro kv hkv
          rcases block_step_entry_status _ _ _ kv hkv with h | h
          · rw [h]; exact ⟨by simp, by simp⟩
          · rcases check_dependencies_entry_status m step.step_id kv h with h' | h'
            · rw [h']; exact ⟨by simp, by simp⟩
            · exact hm kv h'
        · rw [if_neg hck]
          apply ih
          intro kv hkv
          rcases execute_step_entry_status agentContinue stepDone lastObs
              maxIterPerStep _ step _ k kv hkv with h | h
          · rw [h]; exact ⟨by simp, by simp⟩
          · rcases check_dependencies_entry_status m step.step_id kv h with h' | h'
            · rw [h']; exact ⟨by simp, by simp⟩
            · exact hm kv h'

lemma initManager_entry_status (plan : Plan) (plan_id : String) :
    ∀ kv ∈ (initManager plan plan_id).progress.steps_progress,
      kv.2.status = StepStatus.NOT_STARTED := by
  have haux : ∀ (steps : List Step) (acc : List (Nat × StepProgress)),
      (∀ kv ∈ acc, (kv : Nat × StepProgress).2.status = StepStatus.NOT_STARTED) →
      ∀ kv ∈ steps.foldl (fun d s => dinsert s.step_id
        { step_id := s.step_id
          description := s.description
          subtask_count := s.tools.length } d) acc,
        kv.2.status = StepStatus.NOT_STARTED := by
    intro steps
    induction steps with
    | nil => intro acc hacc kv hkv; exact hacc kv hkv
    | cons s rest ih =>
        intro acc hacc kv hkv
        rw [List.foldl_cons] at hkv
        refine ih _ ?_ kv hkv
        intro kv' hkv'
        rcases mem_dinsert _ _ _ kv' hkv' with h | h
        · subst h; rfl
        · exact hacc kv' h
  intro kv hkv
  exact haux plan.steps [] (by intro kv' h; simp at h) kv hkv

/-- C10: in Build mode every step whose dependency check passes is
unconditionally marked COMPLETED once its iteration loop ends (even when the
iteration cap was exhausted or the agent stopped without signalling
completion), and Build never invokes the tracker's fail transition, so at the
end of a Build run no tracker entry has status FAILED or IN_PROGRESS. -/
theorem build_mode_completes_every_executed_step
    (agentContinue stepDone : Nat → Bool) (lastObs : Nat → String)
    (maxIterPerStep : Nat) (plan : Plan) (task : String) (max_steps : Nat)
    (m : PlanTodoManager) (step : Step) (remaining k : Nat) (sp : StepProgress)
    (hsp : dlookup step.step_id m.progress.steps_progress = some sp) :
    (∃ spC, dlookup step.step_id
        ((execute_step agentContinue stepDone lastObs maxIterPerStep m step
          remaining k).1).progress.steps_progress = some spC ∧
      spC.status = StepStatus.COMPLETED) ∧
    (∀ kv ∈ ((build_run agentContinue stepDone lastObs maxIterPerStep plan task
        max_steps).1).progress.steps_progress,
      kv.2.status ≠ StepStatus.FAILED ∧ kv.2.status ≠ StepStatus.IN_PROGRESS) := by
  constructor
  · exact execute_step_completes agentContinue stepDone lastObs maxIterPerStep
      m step remaining k sp hsp
  · rw [build_run]
    apply buildGo_preserves
    intro kv hkv
    rw [initManager_entry_status plan (planIdOf task) kv hkv]
    exact ⟨by simp, by simp⟩

/-- Witness for C10 on a concrete run: a one-step plan driven by an agent that
always continues and never signals done still ends with the step COMPLETED and
no FAILED or IN_PROGRESS entry. -/
theorem build_mode_completes_every_executed_step_witness :
    (∃ spC, dlookup 1
        ((execute_step (fun _ => true) (fun _ => false) (fun _ => "obs") 5
          (initManager oneStepPlan "p") { step_id := 1, description := "s1" }
          10 0).1).progress.steps_progress = some spC ∧
      spC.status = StepStatus.COMPLETED) ∧
    (∀ kv ∈ ((build_run (fun _ => true) (fun _ => false) (fun _ => "obs") 5
        oneStepPlan "t" 10).1).progress.steps_progress,
      kv.2.status ≠ StepStatus.FAILED ∧ kv.2.status ≠ StepStatus.IN_PROGRESS) :=
  build_mode_completes_every_executed_step (fun _ => true) (fun _ => false)
    (fun _ => "obs") 5 oneStepPlan "t" 10 (initManager oneStepPlan "p")
    { step_id := 1, description := "s1" } 10 0
    { step_id := 1, description := "s1", subtask_count := 0 } (by decide)

end ElephanCode
